import Mathlib

/-! Verification of the visage animation/lip-sync core.

This file is a shallow embedding of the core of the repository:

* `web/public/emotion.js` : neutral pose, ranges, presets, `blend`, `lerp`,
  and the stateful `EmotionDriver`;
* `tts/src/markers.js` : `parseMarkers`, `getMarkerEffect`, `stripMarkers`;
* `tts/src/phonemes.js` : `textToPhonemes`, `phonemeToViseme`, `phonemesToFrames`;
* `tts/src/lipsync.js` : `generateLipSync`, `streamLipSync`;
* `tts/src/server.js` : the analyze endpoint response shape.

JavaScript numbers are modelled as exact rationals (`ℚ`); JS objects holding
the 18 facial control points are modelled as total functions `Pt → ℚ`.
-/

set_option allowUnsafeReducibility true

attribute [local semireducible] Rat.mul Rat.inv Rat.add Rat.sub Rat.ofScientific

namespace Visage

/-- The 18 named facial control points of a MocapFrame (emotion.js). -/
inductive Pt where
  | left_eye_open | right_eye_open
  | left_pupil_x | left_pupil_y | right_pupil_x | right_pupil_y
  | left_brow_height | left_brow_angle | right_brow_height | right_brow_angle
  | mouth_open | mouth_wide | mouth_smile | jaw_open | face_scale
  | head_pitch | head_yaw | head_roll
deriving DecidableEq, Fintype

/-- A parameter vector: every control point has a value (JS objects produced by
blend and lerp always carry all 18 keys). -/
abbrev Frame := Pt → ℚ

/-- Neutral pose (emotion.js NEUTRAL). -/
def NEUTRAL : Frame
  | .left_eye_open => 1 | .right_eye_open => 1
  | .left_pupil_x => 0 | .left_pupil_y => 0
  | .right_pupil_x => 0 | .right_pupil_y => 0
  | .left_brow_height => 0 | .left_brow_angle => 0
  | .right_brow_height => 0 | .right_brow_angle => 0
  | .mouth_open => 0 | .mouth_wide => 0 | .mouth_smile => 0
  | .jaw_open => 0 | .face_scale => 1
  | .head_pitch => 0 | .head_yaw => 0 | .head_roll => 0

/-- Valid ranges for clamping (emotion.js RANGES), as (min, max) pairs. -/
def RANGES : Pt → ℚ × ℚ
  | .left_eye_open => (0, 1)
  | .right_eye_open => (0, 1)
  | .left_pupil_x => (-(1/10), 1/10)
  | .left_pupil_y => (-(1/10), 1/10)
  | .right_pupil_x => (-(1/10), 1/10)
  | .right_pupil_y => (-(1/10), 1/10)
  | .left_brow_height => (-1, 1)
  | .left_brow_angle => (-(1/2), 1/2)
  | .right_brow_height => (-1, 1)
  | .right_brow_angle => (-(1/2), 1/2)
  | .mouth_open => (0, 1)
  | .mouth_wide => (0, 1)
  | .mouth_smile => (-(1/2), 1/2)
  | .jaw_open => (0, 1)
  | .face_scale => (1/2, 3/2)
  | .head_pitch => (-(1/10), 1/10)
  | .head_yaw => (-(1/10), 1/10)
  | .head_roll => (-(1/10), 1/10)

/-- joy preset (deltas from neutral; unlisted points are 0). -/
def joyPreset : Pt → ℚ
  | .mouth_smile => 45/100
  | .left_eye_open => -(2/10)
  | .right_eye_open => -(2/10)
  | .left_brow_height => 1/10
  | .right_brow_height => 1/10
  | _ => 0

/-- sadness preset. -/
def sadnessPreset : Pt → ℚ
  | .mouth_smile => -(35/100)
  | .left_brow_height => 15/100
  | .right_brow_height => 15/100
  | .left_brow_angle => 15/100
  | .right_brow_angle => -(15/100)
  | .left_eye_open => -(3/10)
  | .right_eye_open => -(3/10)
  | _ => 0

/-- anger preset. -/
def angerPreset : Pt → ℚ
  | .mouth_smile => -(25/100)
  | .left_brow_height => -(3/10)
  | .right_brow_height => -(3/10)
  | .left_brow_angle => -(2/10)
  | .right_brow_angle => 2/10
  | .jaw_open => 1/10
  | .left_eye_open => -(1/10)
  | .right_eye_open => -(1/10)
  | _ => 0

/-- fear preset (the source lists two explicit zero deltas). -/
def fearPreset : Pt → ℚ
  | .left_eye_open => 0
  | .right_eye_open => 0
  | .left_brow_height => 4/10
  | .right_brow_height => 4/10
  | .left_brow_angle => 1/10
  | .right_brow_angle => -(1/10)
  | .mouth_open => 3/10
  | .jaw_open => 2/10
  | _ => 0

/-- surprise preset. -/
def surprisePreset : Pt → ℚ
  | .left_eye_open => 0
  | .right_eye_open => 0
  | .left_brow_height => 1/2
  | .right_brow_height => 1/2
  | .mouth_open => 1/2
  | .jaw_open => 3/10
  | _ => 0

/-- disgust preset. -/
def disgustPreset : Pt → ℚ
  | .mouth_smile => -(2/10)
  | .left_brow_height => -(15/100)
  | .right_brow_height => 1/10
  | .left_eye_open => -(15/100)
  | .right_eye_open => -(25/100)
  | .mouth_wide => 15/100
  | _ => 0

/-- confidence preset. -/
def confidencePreset : Pt → ℚ
  | .mouth_smile => 12/100
  | .left_eye_open => -(15/100)
  | .right_eye_open => -(15/100)
  | .head_pitch => -(2/100)
  | .left_brow_height => -(5/100)
  | .right_brow_height => -(5/100)
  | _ => 0

/-- uncertainty preset. -/
def uncertaintyPreset : Pt → ℚ
  | .left_brow_height => 2/10
  | .right_brow_height => -(1/10)
  | .mouth_smile => -(5/100)
  | .head_roll => 3/100
  | .head_yaw => 2/100
  | _ => 0

/-- thinking preset. -/
def thinkingPreset : Pt → ℚ
  | .left_brow_height => 5/100
  | .right_brow_height => -(1/10)
  | .left_eye_open => -(15/100)
  | .right_eye_open => -(2/10)
  | .mouth_smile => -(5/100)
  | .left_pupil_x => 4/100
  | .right_pupil_x => 4/100
  | .left_pupil_y => -(3/100)
  | .right_pupil_y => -(3/100)
  | _ => 0

/-- excitement preset. -/
def excitementPreset : Pt → ℚ
  | .mouth_open => 2/10
  | .mouth_smile => 2/10
  | .left_brow_height => 3/10
  | .right_brow_height => 3/10
  | .mouth_wide => 15/100
  | _ => 0

/-- calm preset. -/
def calmPreset : Pt → ℚ
  | .left_eye_open => -(25/100)
  | .right_eye_open => -(25/100)
  | .mouth_smile => 5/100
  | .left_brow_height => -(5/100)
  | .right_brow_height => -(5/100)
  | _ => 0

/-- urgency preset. -/
def urgencyPreset : Pt → ℚ
  | .left_eye_open => 0
  | .right_eye_open => 0
  | .left_brow_height => 15/100
  | .right_brow_height => 15/100
  | .mouth_open => 1/10
  | .jaw_open => 5/100
  | .head_pitch => 2/100
  | _ => 0

/-- reverence preset. -/
def reverencePreset : Pt → ℚ
  | .head_pitch => 4/100
  | .left_eye_open => -(2/10)
  | .right_eye_open => -(2/10)
  | .mouth_smile => 8/100
  | .left_brow_height => 1/10
  | .right_brow_height => 1/10
  | _ => 0

/-- PRESETS lookup (emotion.js PRESETS, as `presets[emotion]` returning
undefined for unknown names). -/
def PRESETS : String → Option (Pt → ℚ)
  | "joy" => some joyPreset
  | "sadness" => some sadnessPreset
  | "anger" => some angerPreset
  | "fear" => some fearPreset
  | "surprise" => some surprisePreset
  | "disgust" => some disgustPreset
  | "confidence" => some confidencePreset
  | "uncertainty" => some uncertaintyPreset
  | "thinking" => some thinkingPreset
  | "excitement" => some excitementPreset
  | "calm" => some calmPreset
  | "urgency" => some urgencyPreset
  | "reverence" => some reverencePreset
  | _ => none

/-- `Math.max` on two numbers (an executable form of `max` on `ℚ`). -/
def jsMax (a b : ℚ) : ℚ := if a ≤ b then b else a

/-- `Math.min` on two numbers (an executable form of `min` on `ℚ`). -/
def jsMin (a b : ℚ) : ℚ := if a ≤ b then a else b

/-- Clamp an emotion weight to the unit interval (`Math.max(0, Math.min(1, weight))`). -/
def clamp01 (w : ℚ) : ℚ := jsMax 0 (jsMin 1 w)

/-- Clamp a point value to its declared range
(`Math.max(min, Math.min(max, frame[point]))`). -/
def clampPt (pt : Pt) (x : ℚ) : ℚ :=
  jsMax (RANGES pt).1 (jsMin (RANGES pt).2 x)

/-- blend (emotion.js): start from NEUTRAL, accumulate weighted preset deltas
(state-vector entries with unknown emotion names are skipped), then clamp every
point to its range.  The state vector is a list of (emotion name, weight)
entries; all weights are numbers in this model. -/
def blend (stateVector : List (String × ℚ)) : Frame :=
  let acc := stateVector.foldl (fun frame ew =>
    match PRESETS ew.1 with
    | none => frame
    | some preset => fun pt => frame pt + clamp01 ew.2 * preset pt) NEUTRAL
  fun pt => clampPt pt (acc pt)

/-- lerp (emotion.js): per-point linear interpolation.  In the source, keys
missing from either operand default to the neutral value; frames here are
total, so every key is present. -/
def lerp (a b : Frame) (t : ℚ) : Frame :=
  fun pt => a pt + (b pt - a pt) * t

/-- State of an EmotionDriver: the current interpolated frame, the transition
target, and whether a transition is in progress. -/
structure DriverState where
  current : Frame
  target : Frame
  transitioning : Bool

/-- Initial EmotionDriver state (constructor of EmotionDriver). -/
def initDriver : DriverState :=
  { current := NEUTRAL, target := NEUTRAL, transitioning := false }

/-- EmotionDriver.update: set a new blended target and start transitioning. -/
def driverUpdate (sv : List (String × ℚ)) (s : DriverState) : DriverState :=
  { current := s.current, target := blend sv, transitioning := true }

/-- EmotionDriver.frame.  The wall-clock reads are abstracted into the call's
inputs: `t` is `Math.min(1, elapsed / transitionMs)` (in `[0,1]` whenever
`elapsed ≥ 0` and `transitionMs > 0`), and `timedOut` is the test
`now - lastUpdateTime > 2000`.  `r` is the configured decayRate
(default 0.02).  Returns the new state and the produced frame. -/
def driverFrame (r t : ℚ) (timedOut : Bool) (s : DriverState) : DriverState × Frame :=
  if s.transitioning then
    let eased := 1 - (1 - t) ^ 3
    let cur := lerp s.current s.target eased
    if 1 ≤ t then
      ({ current := s.target, target := s.target, transitioning := false }, s.target)
    else
      ({ current := cur, target := s.target, transitioning := true }, cur)
  else if timedOut then
    let cur := lerp s.current NEUTRAL r
    ({ current := cur, target := s.target, transitioning := false }, cur)
  else (s, s.current)

/-- An observable interaction with an EmotionDriver: an update call or a
frame call (with its time-derived inputs). -/
inductive DEv where
  | update (sv : List (String × ℚ))
  | frame (t : ℚ) (timedOut : Bool)

/-- Run a sequence of driver calls, collecting every frame produced. -/
def runDriver (r : ℚ) : List DEv → DriverState → DriverState × List Frame
  | [], s => (s, [])
  | DEv.update sv :: evs, s => runDriver r evs (driverUpdate sv s)
  | DEv.frame t timedOut :: evs, s =>
    let sf := driverFrame r t timedOut s
    let rest := runDriver r evs sf.1
    (rest.1, sf.2 :: rest.2)

/-- Validity of a driver event: the transition progress passed to a frame
call lies in `[0,1]` (true in the source because the clock is monotone and
transitionMs is positive). -/
def validEv : DEv → Prop
  | DEv.update _ => True
  | DEv.frame t _ => 0 ≤ t ∧ t ≤ 1

instance : DecidablePred validEv := fun e => by
  cases e with
  | update sv => exact isTrue trivial
  | frame t timedOut => exact inferInstanceAs (Decidable (0 ≤ t ∧ t ≤ 1))

/-- A frame is in range when every point lies within its declared range. -/
def InRange (f : Frame) : Prop :=
  ∀ pt : Pt, (RANGES pt).1 ≤ f pt ∧ f pt ≤ (RANGES pt).2

instance : DecidablePred InRange := fun f =>
  inferInstanceAs (Decidable (∀ pt : Pt, (RANGES pt).1 ≤ f pt ∧ f pt ≤ (RANGES pt).2))

/-- One decay step of a non-transitioning driver that has been idle past the
2-second timeout: exactly what `frame()` does on that path. -/
def stepDecay (r : ℚ) (s : DriverState) : DriverState :=
  (driverFrame r 0 true s).1

/-! ### Marker parsing and stripping (tts/src/markers.js) -/

/-- JS `\w` (ASCII word character). -/
def isWordChar (c : Char) : Bool := c.isAlpha || c.isDigit || c = '_'

/-- JS `[\w-]`. -/
def isWordDash (c : Char) : Bool := isWordChar c || c = '-'

/-- JS `\s` (the whitespace characters relevant here). -/
def isSpaceJS (c : Char) : Bool := c.isWhitespace

/-- Try to match the regex `@@\/?\w[\w-]*@@` at the start of the input.
On success returns (isClosing, marker name, remaining input).  The character
class `[\w-]` excludes `@`, so the greedy star never backtracks and this
scan is exactly the regex's leftmost match behaviour. -/
def matchMarker : List Char → Option (Bool × String × List Char)
  | '@' :: '@' :: '/' :: c :: r2 =>
    if isWordChar c then
      match r2.dropWhile isWordDash with
      | '@' :: '@' :: r4 => some (true, String.mk (c :: r2.takeWhile isWordDash), r4)
      | _ => none
    else none
  | '@' :: '@' :: c :: r2 =>
    if isWordChar c then
      match r2.dropWhile isWordDash with
      | '@' :: '@' :: r4 => some (false, String.mk (c :: r2.takeWhile isWordDash), r4)
      | _ => none
    else none
  | _ => none

/-- A parsed segment (markers.js parseMarkers). -/
inductive Seg where
  | text (content : String)
  | markerStart (name : String)
  | markerEnd (name : String)
  | marker (name : String)
deriving DecidableEq

/-- The left-to-right scan of parseMarkers.  `acc` is the pending plain text
(reversed); a text segment is emitted only when nonempty, exactly as the
source pushes text only for nonempty spans.  `fuel` is an upper bound on the
number of scan steps; each step consumes at least one character, so
`fuel = input length` never runs out. -/
def scanFuel : Nat → List Char → List Char → List Seg
  | 0, l, acc =>
    match acc.reverse ++ l with
    | [] => []
    | t => [Seg.text (String.mk t)]
  | _ + 1, [], acc =>
    if acc.isEmpty then [] else [Seg.text (String.mk acc.reverse)]
  | fuel + 1, c :: cs, acc =>
    match matchMarker (c :: cs) with
    | some (isClosing, name, rest) =>
      let pre : List Seg := if acc.isEmpty then [] else [Seg.text (String.mk acc.reverse)]
      let seg :=
        if isClosing then Seg.markerEnd name
        else if name = "pause" || name = "long-pause" then Seg.marker name
        else Seg.markerStart name
      pre ++ seg :: scanFuel fuel rest []
    | none => scanFuel fuel cs (c :: acc)

/-- parseMarkers (markers.js). -/
def parseMarkers (s : String) : List Seg := scanFuel s.data.length s.data []

/-- The marker-removal pass of stripMarkers:
`text.replace(/@@\/?\w[\w-]*@@/g, '')`, i.e. the concatenation of the
unmatched spans of the same left-to-right scan. -/
def removeFuel : Nat → List Char → List Char
  | 0, l => l
  | _ + 1, [] => []
  | fuel + 1, c :: cs =>
    match matchMarker (c :: cs) with
    | some (_, _, rest) => removeFuel fuel rest
    | none => c :: removeFuel fuel cs

/-- Marker removal entry point. -/
def removeMarkers (l : List Char) : List Char := removeFuel l.length l

/-- Does the marker regex match at some position of the text? -/
def hasMarker : List Char → Bool
  | [] => false
  | c :: cs => (matchMarker (c :: cs)).isSome || hasMarker cs

/-- The whitespace-collapsing pass `replace(/\s+/g, ' ')`, written as a
single character scan: each maximal whitespace run becomes one space.  The
flag records whether the previous input character was whitespace. -/
def collapseGo : Bool → List Char → List Char
  | _, [] => []
  | prevSpace, c :: cs =>
    if isSpaceJS c then
      if prevSpace then collapseGo true cs else ' ' :: collapseGo true cs
    else c :: collapseGo false cs

/-- Drop leading whitespace (half of `String.prototype.trim`). -/
def trimL (l : List Char) : List Char := l.dropWhile isSpaceJS

/-- Drop trailing whitespace. -/
def trimR (l : List Char) : List Char := ((l.reverse).dropWhile isSpaceJS).reverse

/-- JS `.trim()`. -/
def trimWs (l : List Char) : List Char := trimR (trimL l)

/-- stripMarkers (markers.js): remove all marker tokens, collapse whitespace
runs to single spaces, trim the ends. -/
def stripMarkers (s : String) : String :=
  String.mk (trimWs (collapseGo false (removeMarkers s.data)))

/-- Marker effect record (markers.js MARKER_EFFECTS entries); absent fields
are `none` (undefined). -/
structure MarkerEffect where
  speedMultiplier : Option ℚ := none
  mouthScale : Option ℚ := none
  browRaise : Option ℚ := none
  pauseDuration : Option ℚ := none
deriving DecidableEq

/-- emphasis: slower, slightly larger mouth movements. -/
def emphasisEffect : MarkerEffect :=
  { speedMultiplier := some (7/10), mouthScale := some (13/10) }

/-- pause: insert 0.4s of silence. -/
def pauseEffect : MarkerEffect := { pauseDuration := some (2/5) }

/-- long-pause: insert 0.8s of silence. -/
def longPauseEffect : MarkerEffect := { pauseDuration := some (4/5) }

/-- whisper: small mouth movements. -/
def whisperEffect : MarkerEffect :=
  { speedMultiplier := some (4/5), mouthScale := some (2/5) }

/-- excited: faster, bigger movements, brow raise. -/
def excitedEffect : MarkerEffect :=
  { speedMultiplier := some (13/10), mouthScale := some (6/5), browRaise := some (6/100) }

/-- question: brow raise. -/
def questionEffect : MarkerEffect := { browRaise := some (5/100) }

/-- getMarkerEffect (markers.js): `MARKER_EFFECTS[name] || null`. -/
def getMarkerEffect (name : String) : Option MarkerEffect :=
  if name = "emphasis" then some emphasisEffect
  else if name = "pause" then some pauseEffect
  else if name = "long-pause" then some longPauseEffect
  else if name = "whisper" then some whisperEffect
  else if name = "excited" then some excitedEffect
  else if name = "question" then some questionEffect
  else none

/-! ### Phonemes and visemes (tts/src/phonemes.js) -/

/-- A phoneme with its duration estimate in seconds. -/
structure Phon where
  phoneme : String
  duration : ℚ
deriving DecidableEq

/-- A viseme: the mouth-shape parameters of one phoneme. -/
structure Viseme where
  mouth_open : ℚ
  mouth_wide : ℚ
  jaw_open : ℚ
deriving DecidableEq

/-- The silence viseme (VISEME_MAP entry for the `_` phoneme). -/
def silenceViseme : Viseme := { mouth_open := 0, mouth_wide := 0, jaw_open := 0 }

/-- VISEME_MAP (phonemes.js). -/
def VISEME_MAP : String → Option Viseme
  | "_" => some silenceViseme
  | "AA" => some { mouth_open := 85/100, mouth_wide := 3/10, jaw_open := 8/10 }
  | "AE" => some { mouth_open := 7/10, mouth_wide := 1/2, jaw_open := 6/10 }
  | "AH" => some { mouth_open := 6/10, mouth_wide := 3/10, jaw_open := 1/2 }
  | "AO" => some { mouth_open := 7/10, mouth_wide := 2/10, jaw_open := 7/10 }
  | "AW" => some { mouth_open := 7/10, mouth_wide := 2/10, jaw_open := 7/10 }
  | "AY" => some { mouth_open := 7/10, mouth_wide := 4/10, jaw_open := 6/10 }
  | "EH" => some { mouth_open := 1/2, mouth_wide := 1/2, jaw_open := 4/10 }
  | "ER" => some { mouth_open := 4/10, mouth_wide := 2/10, jaw_open := 3/10 }
  | "EY" => some { mouth_open := 4/10, mouth_wide := 6/10, jaw_open := 3/10 }
  | "IH" => some { mouth_open := 3/10, mouth_wide := 1/2, jaw_open := 2/10 }
  | "IY" => some { mouth_open := 2/10, mouth_wide := 7/10, jaw_open := 15/100 }
  | "OW" => some { mouth_open := 6/10, mouth_wide := 1/10, jaw_open := 1/2 }
  | "OY" => some { mouth_open := 6/10, mouth_wide := 2/10, jaw_open := 1/2 }
  | "UH" => some { mouth_open := 4/10, mouth_wide := 15/100, jaw_open := 35/100 }
  | "UW" => some { mouth_open := 3/10, mouth_wide := 1/10, jaw_open := 3/10 }
  | "B" => some { mouth_open := 0, mouth_wide := 0, jaw_open := 5/100 }
  | "CH" => some { mouth_open := 15/100, mouth_wide := 3/10, jaw_open := 1/10 }
  | "D" => some { mouth_open := 1/10, mouth_wide := 3/10, jaw_open := 1/10 }
  | "DH" => some { mouth_open := 1/10, mouth_wide := 3/10, jaw_open := 1/10 }
  | "F" => some { mouth_open := 5/100, mouth_wide := 3/10, jaw_open := 5/100 }
  | "G" => some { mouth_open := 15/100, mouth_wide := 2/10, jaw_open := 15/100 }
  | "HH" => some { mouth_open := 3/10, mouth_wide := 3/10, jaw_open := 2/10 }
  | "JH" => some { mouth_open := 15/100, mouth_wide := 3/10, jaw_open := 1/10 }
  | "K" => some { mouth_open := 15/100, mouth_wide := 2/10, jaw_open := 15/100 }
  | "L" => some { mouth_open := 2/10, mouth_wide := 3/10, jaw_open := 15/100 }
  | "M" => some { mouth_open := 0, mouth_wide := 0, jaw_open := 5/100 }
  | "N" => some { mouth_open := 1/10, mouth_wide := 3/10, jaw_open := 1/10 }
  | "NG" => some { mouth_open := 15/100, mouth_wide := 2/10, jaw_open := 15/100 }
  | "P" => some { mouth_open := 0, mouth_wide := 0, jaw_open := 5/100 }
  | "R" => some { mouth_open := 2/10, mouth_wide := 15/100, jaw_open := 15/100 }
  | "S" => some { mouth_open := 5/100, mouth_wide := 4/10, jaw_open := 5/100 }
  | "SH" => some { mouth_open := 1/10, mouth_wide := 2/10, jaw_open := 8/100 }
  | "T" => some { mouth_open := 1/10, mouth_wide := 3/10, jaw_open := 1/10 }
  | "TH" => some { mouth_open := 1/10, mouth_wide := 3/10, jaw_open := 8/100 }
  | "V" => some { mouth_open := 5/100, mouth_wide := 3/10, jaw_open := 5/100 }
  | "W" => some { mouth_open := 2/10, mouth_wide := 5/100, jaw_open := 15/100 }
  | "Y" => some { mouth_open := 15/100, mouth_wide := 1/2, jaw_open := 1/10 }
  | "Z" => some { mouth_open := 5/100, mouth_wide := 4/10, jaw_open := 5/100 }
  | "ZH" => some { mouth_open := 1/10, mouth_wide := 2/10, jaw_open := 8/100 }
  | _ => none

/-- phonemeToViseme (phonemes.js): `VISEME_MAP[phoneme] || VISEME_MAP['_']`. -/
def phonemeToViseme (p : String) : Viseme := (VISEME_MAP p).getD silenceViseme

/-- LETTER_TO_PHONEME (phonemes.js). -/
def letterToPhoneme : Char → Option String
  | 'a' => some "AH" | 'b' => some "B" | 'c' => some "K" | 'd' => some "D"
  | 'e' => some "EH" | 'f' => some "F" | 'g' => some "G" | 'h' => some "HH"
  | 'i' => some "IH" | 'j' => some "JH" | 'k' => some "K" | 'l' => some "L"
  | 'm' => some "M" | 'n' => some "N" | 'o' => some "OW" | 'p' => some "P"
  | 'q' => some "K" | 'r' => some "R" | 's' => some "S" | 't' => some "T"
  | 'u' => some "AH" | 'v' => some "V" | 'w' => some "W" | 'x' => some "K"
  | 'y' => some "IY" | 'z' => some "Z"
  | _ => none

/-- DIGRAPHS (phonemes.js), keyed on the two characters. -/
def digraphPhoneme : Char → Char → Option String
  | 't', 'h' => some "TH" | 's', 'h' => some "SH" | 'c', 'h' => some "CH"
  | 'w', 'h' => some "W" | 'p', 'h' => some "F" | 'n', 'g' => some "NG"
  | 'o', 'o' => some "UW" | 'e', 'e' => some "IY" | 'e', 'a' => some "IY"
  | 'o', 'u' => some "AW" | 'o', 'w' => some "AW" | 'a', 'i' => some "EY"
  | 'a', 'y' => some "EY" | 'o', 'i' => some "OY" | 'o', 'y' => some "OY"
  | 'a', 'r' => some "AA" | 'e', 'r' => some "ER" | 'i', 'r' => some "ER"
  | 'o', 'r' => some "AO" | 'u', 'r' => some "ER"
  | _, _ => none

/-- `'AEIOU'.includes(ph[0])`. -/
def isVowelPhoneme (ph : String) : Bool :=
  match ph.data with
  | c :: _ => c = 'A' || c = 'E' || c = 'I' || c = 'O' || c = 'U'
  | [] => false

/-- Phoneme for a single letter, with its duration (`isVowel ? 0.09 : 0.06`);
unknown characters fall back to the `_` phoneme. -/
def letterPhon (c : Char) : Phon :=
  let ph := (letterToPhoneme c).getD "_"
  { phoneme := ph, duration := if isVowelPhoneme ph then 9/100 else 3/50 }

/-- The per-word scan of textToPhonemes: digraphs first (consuming two
characters, duration `isVowel ? 0.1 : 0.07`), else a single letter. -/
def wordToPhonemes : List Char → List Phon
  | [] => []
  | [c] => [letterPhon c]
  | c1 :: c2 :: rest =>
    match digraphPhoneme c1 c2 with
    | some ph =>
      { phoneme := ph, duration := if isVowelPhoneme ph then 1/10 else 7/100 }
        :: wordToPhonemes rest
    | none => letterPhon c1 :: wordToPhonemes (c2 :: rest)

/-- `text.toLowerCase().replace(/[^a-z\s]/g, '')`. -/
def toLowerFilter (l : List Char) : List Char :=
  (l.map Char.toLower).filter (fun c => ('a' ≤ c && c ≤ 'z') || isSpaceJS c)

/-- `split(/\s+/).filter(w => w.length > 0)`, as a single scan (the
accumulator is the current word, reversed). -/
def splitWordsGo : List Char → List Char → List (List Char)
  | [], acc => if acc.isEmpty then [] else [acc.reverse]
  | c :: cs, acc =>
    if isSpaceJS c then
      if acc.isEmpty then splitWordsGo cs [] else acc.reverse :: splitWordsGo cs []
    else splitWordsGo cs (c :: acc)

/-- Word phonemes joined with the inter-word pause `{phoneme: '_', duration: 0.08}`. -/
def joinWords : List (List Char) → List Phon
  | [] => []
  | [w] => wordToPhonemes w
  | w :: w2 :: ws =>
    wordToPhonemes w ++ { phoneme := "_", duration := 2/25 } :: joinWords (w2 :: ws)

/-- textToPhonemes (phonemes.js). -/
def textToPhonemes (l : List Char) : List Phon :=
  joinWords (splitWordsGo (toLowerFilter l) [])

/-! ### Phoneme frames (phonemesToFrames) and lip-sync generation -/

/-- A viseme timeline segment; the source's `end` field is called `stop`
here because `end` is a Lean keyword. -/
structure TSeg where
  start : ℚ
  stop : ℚ
  viseme : Viseme
deriving DecidableEq

/-- Build the viseme timeline of phonemesToFrames, threading the running
start time. -/
def buildTimelineGo : ℚ → List Phon → List TSeg
  | _, [] => []
  | t, p :: ps =>
    { start := t, stop := t + p.duration, viseme := phonemeToViseme p.phoneme }
      :: buildTimelineGo (t + p.duration) ps

/-- The points of one lip-sync frame.  phonemesToFrames emits only the four
mouth keys; generateLipSync may additionally set the two brow keys, so they
are optional (`none` = key absent). -/
structure Pts where
  mouth_open : ℚ
  mouth_wide : ℚ
  jaw_open : ℚ
  mouth_smile : ℚ
  left_brow_height : Option ℚ := none
  right_brow_height : Option ℚ := none
deriving DecidableEq

/-- A timed lip-sync frame. -/
structure LFrame where
  t : ℚ
  pts : Pts
deriving DecidableEq

/-- The local `lerp` closure of phonemesToFrames. -/
def qlerp (a b t : ℚ) : ℚ := a + (b - a) * t

/-- One sampling step of phonemesToFrames at time `tc`: find the current
timeline segment (falling back to the last), interpolate toward the next
viseme near the segment boundary. -/
def samplePts (timeline : List TSeg) (tc : ℚ) : Pts :=
  let idx := (timeline.findIdx? (fun e => decide (e.start ≤ tc) && decide (tc < e.stop))).getD
    (timeline.length - 1)
  match timeline[idx]? with
  | none => { mouth_open := 0, mouth_wide := 0, jaw_open := 0, mouth_smile := 1/20 }
  | some cur =>
    let progress := (tc - cur.start) / (cur.stop - cur.start)
    let nxt :=
      match timeline[idx + 1]? with
      | some e => e.viseme
      | none => silenceViseme
    let b := if 7/10 < progress then (progress - 7/10) / (3/10) else 0
    { mouth_open := qlerp cur.viseme.mouth_open nxt.mouth_open b,
      mouth_wide := qlerp cur.viseme.mouth_wide nxt.mouth_wide b,
      jaw_open := qlerp cur.viseme.jaw_open nxt.jaw_open b,
      mouth_smile := 1/20 }

/-- Points of the trailing closed-mouth frame (`mouth_smile: 0.1`). -/
def closingPts : Pts :=
  { mouth_open := 0, mouth_wide := 0, jaw_open := 0, mouth_smile := 1/10 }

/-- phonemesToFrames (phonemes.js).  The source's sampling loop runs
`currentTime = i * (1/fps)` for exactly those `i` with `i / fps <
totalDuration`; with exact arithmetic that is `i < ⌈totalDuration * fps⌉`,
and the trailing closed-mouth frame lands at `n / fps`. -/
def phonemesToFrames (phonemes : List Phon) (fps : ℚ) : List LFrame :=
  let timeline := buildTimelineGo 0 phonemes
  let totalDuration := phonemes.foldl (fun s p => s + p.duration) 0
  let n := (Rat.ceil (totalDuration * fps)).toNat
  (List.range n).map
      (fun i => { t := (i : ℚ) / fps, pts := samplePts timeline ((i : ℚ) / fps) })
    ++ [{ t := (n : ℚ) / fps, pts := closingPts }]

/-- JS `Math.round` (round half toward positive infinity). -/
def jsRound (q : ℚ) : ℤ := Rat.floor (q + 1/2)

/-- One active effect applied to the accumulated (speed, mouth scale, brow
raise) triple: multiply the speed and mouth scale, max the brow raise,
skipping falsy (absent or zero) fields — the body of generateLipSync's
`for (const eff of activeEffects)` loop. -/
def effectStep (acc : ℚ × ℚ × ℚ) (e : MarkerEffect) : ℚ × ℚ × ℚ :=
  ( match e.speedMultiplier with
    | some v => if v = 0 then acc.1 else acc.1 * v
    | none => acc.1,
    match e.mouthScale with
    | some v => if v = 0 then acc.2.1 else acc.2.1 * v
    | none => acc.2.1,
    match e.browRaise with
    | some v => if v = 0 then acc.2.2 else jsMax acc.2.2 v
    | none => acc.2.2 )

/-- The per-segment effect accumulation of generateLipSync, starting from
`(speed, 1, 0)`. -/
def foldEffects (speed : ℚ) (effs : List MarkerEffect) : ℚ × ℚ × ℚ :=
  effs.foldl effectStep (speed, 1, 0)

/-- The per-frame effect application of generateLipSync: scale the mouth
fields (clamped above by 1) and set the brow fields when the brow raise is
positive. -/
def applyFx (mouthScale browRaise : ℚ) (p : Pts) : Pts :=
  { mouth_open := jsMin 1 (p.mouth_open * mouthScale),
    mouth_wide := jsMin 1 (p.mouth_wide * mouthScale),
    jaw_open := jsMin 1 (p.jaw_open * mouthScale),
    mouth_smile := p.mouth_smile,
    left_brow_height := if 0 < browRaise then some browRaise else p.left_brow_height,
    right_brow_height := if 0 < browRaise then some browRaise else p.right_brow_height }

/-- Points of an inserted pause frame. -/
def pausePts : Pts :=
  { mouth_open := 0, mouth_wide := 0, jaw_open := 0, mouth_smile := 1/20 }

/-- The mutable state of generateLipSync's segment loop. -/
structure GenState where
  timeOffset : ℚ
  frames : List LFrame
  activeEffects : List MarkerEffect
deriving DecidableEq

/-- The pause-insertion branch of the segment loop: push
`Math.round(pauseDuration * fps)` silence frames and advance the time
offset by the pause duration. -/
def processPause (fps : ℚ) (st : GenState) (d : ℚ) : GenState :=
  let n := (jsRound (d * fps)).toNat
  { timeOffset := st.timeOffset + d,
    frames := st.frames ++
      (List.range n).map (fun i => { t := st.timeOffset + (i : ℚ) / fps, pts := pausePts }),
    activeEffects := st.activeEffects }

/-- The per-frame adjustment of generateLipSync's text branch: shift the
frame time by the running offset and apply the mouth scale / brow raise. -/
def offsetFx (off sc br : ℚ) (f : LFrame) : LFrame :=
  { t := f.t + off, pts := applyFx sc br f.pts }

/-- The text branch of the segment loop: phonemize the content, apply the
active effects to speed, generate frames, scale and offset them, and move
the time offset past the last generated frame. -/
def processText (fps speed : ℚ) (st : GenState) (content : String) : GenState :=
  let phonemes := textToPhonemes content.data
  let eff := foldEffects speed st.activeEffects
  let phonemes2 :=
    if eff.1 = 1 then phonemes
    else phonemes.map (fun p => { p with duration := p.duration / eff.1 })
  let fs := phonemesToFrames phonemes2 fps
  let mapped := fs.map (offsetFx st.timeOffset eff.2.1 eff.2.2)
  { timeOffset :=
      match mapped.getLast? with
      | some f => f.t + 1 / fps
      | none => st.timeOffset,
    frames := st.frames ++ mapped,
    activeEffects := st.activeEffects }

/-- One iteration of generateLipSync's segment loop. -/
def processSeg (fps speed : ℚ) (st : GenState) : Seg → GenState
  | Seg.markerStart name =>
    match getMarkerEffect name with
    | some e => { st with activeEffects := st.activeEffects ++ [e] }
    | none => st
  | Seg.markerEnd _ => { st with activeEffects := st.activeEffects.dropLast }
  | Seg.marker name =>
    match getMarkerEffect name with
    | none => st
    | some e =>
      match e.pauseDuration with
      | none => st
      | some d => if d = 0 then st else processPause fps st d
  | Seg.text content => processText fps speed st content

/-- generateLipSync's return record. -/
structure LipSyncResult where
  frames : List LFrame
  duration : ℚ
  phonemeCount : ℕ
deriving DecidableEq

/-- The trailing "end with mouth closed" step of generateLipSync: a final
closing frame at the current time offset, only when frames were produced. -/
def finishFrames (st : GenState) : List LFrame :=
  if st.frames.isEmpty then st.frames
  else st.frames ++ [{ t := st.timeOffset, pts := closingPts }]

/-- generateLipSync (lipsync.js); `fps` and `speed` default to 30 and 1 in
the source. -/
def generateLipSync (text : String) (fps speed : ℚ) : LipSyncResult :=
  let segs := parseMarkers text
  let st := segs.foldl (processSeg fps speed)
    { timeOffset := 0, frames := [], activeEffects := [] }
  let allFrames := finishFrames st
  { frames := allFrames,
    duration :=
      match allFrames.getLast? with
      | some f => f.t
      | none => 0,
    phonemeCount := allFrames.length }

/-- The lip-sync fields of the `/api/analyze` response (tts/src/server.js):
`phonemeCount` comes straight from generateLipSync, `frameCount` is
`frames.length`. -/
structure AnalyzeResponse where
  durationMs : ℤ
  phonemeCount : ℕ
  frameCount : ℕ
deriving DecidableEq

/-- The analyze endpoint's computation of those fields. -/
def analyze (text : String) (speed fps : ℚ) : AnalyzeResponse :=
  let r := generateLipSync text fps speed
  { durationMs := jsRound (r.duration * 1000),
    phonemeCount := r.phonemeCount,
    frameCount := r.frames.length }

/-! ### Streamed delivery (streamLipSync, lipsync.js) -/

/-- Observable state of a streamLipSync delivery: the next frame index, the
`stopped` flag, and the log of frames handed to `onFrame`. -/
structure StreamState where
  index : ℕ
  stopped : Bool
  delivered : List LFrame
deriving DecidableEq

/-- Initial delivery state. -/
def initStream : StreamState := { index := 0, stopped := false, delivered := [] }

/-- One `tick()` execution at wall-clock time `elapsed`: return immediately
when stopped or past the end, otherwise deliver every frame due by
`elapsed`.  JS timer callbacks run one at a time, so a whole tick is one
atomic event. -/
def streamTick (frames : List LFrame) (elapsed : ℚ) (s : StreamState) : StreamState :=
  if s.stopped || decide (frames.length ≤ s.index) then s
  else
    let due := (frames.drop s.index).takeWhile (fun f => decide (f.t ≤ elapsed))
    { index := s.index + due.length, stopped := s.stopped, delivered := s.delivered ++ due }

/-- The `stop()` closure: set the `stopped` flag. -/
def streamStop (s : StreamState) : StreamState := { s with stopped := true }

/-- An event in the single-threaded interleaving of timer ticks and calls to
`stop()`. -/
inductive SEv where
  | tick (elapsed : ℚ)
  | stop

/-- Run an interleaving of ticks and stops. -/
def runStream (frames : List LFrame) : List SEv → StreamState → StreamState
  | [], s => s
  | SEv.tick e :: evs, s => runStream frames evs (streamTick frames e s)
  | SEv.stop :: evs, s => runStream frames evs (streamStop s)

/-! ### Auxiliary predicates used by the proofs -/

instance : Nonempty Pt := ⟨Pt.mouth_open⟩

/-- Is the head (if any) a non-whitespace character? -/
def headNotSpace : List Char → Bool
  | [] => true
  | c :: _ => !isSpaceJS c

/-- Whitespace-normal form: every whitespace character is a plain space and
no two adjacent characters are both whitespace — the shape
`replace(/\s+/g, ' ')` produces. -/
def collapsedB : List Char → Bool
  | [] => true
  | [c] => !isSpaceJS c || c == ' '
  | c1 :: c2 :: cs => (!isSpaceJS c1 || (c1 == ' ' && !isSpaceJS c2)) && collapsedB (c2 :: cs)

/-- Loop invariant of generateLipSync's segment loop: emitted frame times are
non-decreasing and never exceed the running time offset. -/
def GenInvariant (st : GenState) : Prop :=
  List.Sorted (· ≤ ·) (st.frames.map LFrame.t) ∧ ∀ f ∈ st.frames, f.t ≤ st.timeOffset

/-! ## Theorems -/

/-- C6: on the canonical preset table, `blend {joy: 1}` moves mouth_smile by
the full joy delta 0.45 from neutral (which clamping to `[-0.5, 0.5]` leaves
intact), and `blend {joy: 0.5}` moves it by exactly half that delta. -/
theorem c6_blend_linearity :
    blend [("joy", 1)] Pt.mouth_smile = NEUTRAL Pt.mouth_smile + 45/100 ∧
    blend [("joy", 1/2)] Pt.mouth_smile = NEUTRAL Pt.mouth_smile + (45/100) / 2 := by
  constructor <;> decide

/-- C7: parseMarkers on `"Hello @@emphasis@@world@@/emphasis@@! @@pause@@"`
yields exactly the six segments text "Hello ", marker_start "emphasis",
text "world", marker_end "emphasis", text "! ", marker "pause", in order. -/
theorem c7_parse_roundtrip :
    parseMarkers "Hello @@emphasis@@world@@/emphasis@@! @@pause@@" =
      [Seg.text "Hello ", Seg.markerStart "emphasis", Seg.text "world",
       Seg.markerEnd "emphasis", Seg.text "! ", Seg.marker "pause"] := by
  decide

/-- C10: generateLipSync's `phonemeCount` is the length of the produced
frames array, not the number of phonemes derived from the text (for "hello"
they differ: 13 frames versus 5 phonemes); hence the analyze endpoint
reports `phonemeCount` and `frameCount` as equal values. -/
theorem c10_phoneme_count_is_frame_count :
    (∀ (text : String) (fps speed : ℚ),
      (generateLipSync text fps speed).phonemeCount =
        (generateLipSync text fps speed).frames.length) ∧
    (∀ (text : String) (speed fps : ℚ),
      (analyze text speed fps).phonemeCount = (analyze text speed fps).frameCount) ∧
    (generateLipSync "hello" 30 1).phonemeCount ≠ (textToPhonemes "hello".data).length := by
  refine ⟨fun text fps speed => rfl, fun text speed fps => rfl, ?_⟩
  decide

/-- Helper for C5: once the stopped flag is set, running any further events
leaves the state unchanged. -/
theorem runStream_of_stopped (frames : List LFrame) :
    ∀ (evs : List SEv) (s : StreamState), s.stopped = true → runStream frames evs s = s := by
  intro evs
  induction evs with
  | nil => intro s _; rfl
  | cons e evs ih =>
    intro s hs
    cases e with
    | tick elapsed =>
      have ht : streamTick frames elapsed s = s := by
        unfold streamTick
        rw [hs]
        simp
      rw [runStream, ht, ih s hs]
    | stop =>
      have ht : streamStop s = s := by
        cases s with
        | mk i st d => cases hs; rfl
      rw [runStream, ht, ih s hs]

/-- C5: in any single-threaded interleaving of delivery ticks and a call to
`stop()`, the frames delivered by the whole run are exactly those delivered
up to the stop: no tick after the stop delivers anything, regardless of how
many frames remain undelivered.  (The tick checks the stopped flag before
delivering.) -/
theorem c5_stop_halts_delivery :
    ∀ (frames : List LFrame) (pre post : List SEv) (s : StreamState),
      (runStream frames (pre ++ SEv.stop :: post) s).delivered =
        (runStream frames (pre ++ [SEv.stop]) s).delivered := by
  intro frames pre
  induction pre with
  | nil =>
    intro post s
    have h1 : runStream frames ([] ++ SEv.stop :: post) s = runStream frames post (streamStop s) := rfl
    have h2 : runStream frames post (streamStop s) = streamStop s :=
      runStream_of_stopped frames post (streamStop s) rfl
    rw [h1, h2]
    rfl
  | cons e pre ih =>
    intro post s
    cases e with
    | tick elapsed => exact ih post (streamTick frames elapsed s)
    | stop => exact ih post (streamStop s)

/-- C3 (amended): a marker_start whose name is not in the effect table
contributes no effect scope — the generator state is unchanged by it. -/
theorem c3_unknown_marker_start_noop :
    ∀ (fps speed : ℚ) (st : GenState) (name : String),
      getMarkerEffect name = none →
        processSeg fps speed st (Seg.markerStart name) = st := by
  intro fps speed st name h
  simp only [processSeg, h]

/-- Witness for the C3 amended theorem at a concrete unknown marker name. -/
theorem c3_unknown_marker_start_noop_witness :
    getMarkerEffect "foo" = none ∧
      processSeg 30 1 { timeOffset := 0, frames := [], activeEffects := [] }
          (Seg.markerStart "foo") =
        { timeOffset := 0, frames := [], activeEffects := [] } :=
  ⟨by decide, c3_unknown_marker_start_noop 30 1 _ "foo" (by decide)⟩

/-- C3 counterexample: the claim "unknown paired markers have no effect on
lip-sync generation" is false — `"hi @@foo@@world@@/foo@@"` and the same
text with the unknown marker tokens removed (`"hi world"`) produce different
frame sequences (the marker tokens still split the text into separate
segments, each with its own inter-segment timing and closing frame). -/
theorem c3_unknown_marker_changes_frames :
    (generateLipSync "hi @@foo@@world@@/foo@@" 30 1).frames ≠
      (generateLipSync "hi world" 30 1).frames := by
  intro h
  have hlen := congrArg List.length h
  revert hlen
  decide

/-- C2 counterexample: stripMarkers is not idempotent — removing a marker
can splice a new marker token together.  `"@@@b@@@a@@"` strips to
`"@@a@@"`, which strips to `""`. -/
theorem c2_strip_not_idempotent :
    stripMarkers (stripMarkers "@@@b@@@a@@") ≠ stripMarkers "@@@b@@@a@@" := by
  decide

/-- The neutral pose is in range. -/
theorem neutral_inRange : InRange NEUTRAL := by decide

/-- `jsMax` agrees with `max`. -/
theorem jsMax_eq (a b : ℚ) : jsMax a b = max a b := by
  unfold jsMax
  split
  · exact (max_eq_right (by assumption)).symm
  · exact (max_eq_left (le_of_not_le (by assumption))).symm

/-- `jsMin` agrees with `min`. -/
theorem jsMin_eq (a b : ℚ) : jsMin a b = min a b := by
  unfold jsMin
  split
  · exact (min_eq_left (by assumption)).symm
  · exact (min_eq_right (le_of_not_le (by assumption))).symm

/-- Every blended frame is in range: blend clamps each point to its declared
range, and each declared range is nonempty. -/
theorem blend_inRange (sv : List (String × ℚ)) : InRange (blend sv) := by
  intro pt
  show (RANGES pt).1 ≤ clampPt pt _ ∧ clampPt pt _ ≤ (RANGES pt).2
  have hlo : (RANGES pt).1 ≤ (RANGES pt).2 := by revert pt; decide
  unfold clampPt
  rw [jsMax_eq, jsMin_eq]
  exact ⟨le_max_left _ _, max_le hlo (min_le_left _ _)⟩

/-- A linear interpolation with factor in `[0,1]` of two values of an
interval stays in the interval. -/
theorem lerp_mem {lo hi a b t : ℚ} (ha : lo ≤ a ∧ a ≤ hi) (hb : lo ≤ b ∧ b ≤ hi)
    (ht0 : 0 ≤ t) (ht1 : t ≤ 1) : lo ≤ a + (b - a) * t ∧ a + (b - a) * t ≤ hi := by
  obtain ⟨ha1, ha2⟩ := ha
  obtain ⟨hb1, hb2⟩ := hb
  constructor <;> nlinarith

/-- lerp with factor in `[0,1]` preserves in-rangeness. -/
theorem lerp_inRange {a b : Frame} {t : ℚ} (ha : InRange a) (hb : InRange b)
    (ht0 : 0 ≤ t) (ht1 : t ≤ 1) : InRange (lerp a b t) :=
  fun pt => lerp_mem (ha pt) (hb pt) ht0 ht1

/-- The ease-out-cubic factor stays in `[0,1]` for `t` in `[0,1]`. -/
theorem eased_mem {t : ℚ} (ht0 : 0 ≤ t) (ht1 : t ≤ 1) :
    0 ≤ 1 - (1 - t) ^ 3 ∧ 1 - (1 - t) ^ 3 ≤ 1 := by
  have hu0 : (0:ℚ) ≤ 1 - t := by linarith
  have hu1 : 1 - t ≤ (1:ℚ) := by linarith
  constructor <;> nlinarith [sq_nonneg (1 - t), sq_nonneg t]

/-- A frame call preserves the driver's in-range invariant and produces an
in-range frame. -/
theorem driverFrame_invariant (r t : ℚ) (timedOut : Bool) (s : DriverState)
    (hr0 : 0 ≤ r) (hr1 : r ≤ 1) (ht0 : 0 ≤ t) (ht1 : t ≤ 1)
    (hc : InRange s.current) (hg : InRange s.target) :
    (InRange (driverFrame r t timedOut s).1.current ∧
      InRange (driverFrame r t timedOut s).1.target) ∧
      InRange (driverFrame r t timedOut s).2 := by
  obtain ⟨he0, he1⟩ := eased_mem ht0 ht1
  have hcur : InRange (lerp s.current s.target (1 - (1 - t) ^ 3)) :=
    lerp_inRange hc hg he0 he1
  have hdec : InRange (lerp s.current NEUTRAL r) :=
    lerp_inRange hc neutral_inRange hr0 hr1
  unfold driverFrame
  cases hst : s.transitioning with
  | true =>
    simp only [hst, if_true]
    by_cases h1t : 1 ≤ t
    · simp only [if_pos h1t]
      exact ⟨⟨hg, hg⟩, hg⟩
    · simp only [if_neg h1t]
      exact ⟨⟨hcur, hg⟩, hcur⟩
  | false =>
    cases timedOut with
    | true =>
      simp only [hst, Bool.false_eq_true, if_false, if_true]
      exact ⟨⟨hdec, hg⟩, hdec⟩
    | false =>
      simp only [hst, Bool.false_eq_true, if_false]
      exact ⟨⟨hc, hg⟩, hc⟩

/-- Every frame produced along a valid driver run from an in-range state is
in range. -/
theorem runDriver_inRange {r : ℚ} (hr0 : 0 ≤ r) (hr1 : r ≤ 1) :
    ∀ (evs : List DEv) (s : DriverState), (∀ e ∈ evs, validEv e) →
      InRange s.current → InRange s.target →
      ∀ f ∈ (runDriver r evs s).2, InRange f := by
  intro evs
  induction evs with
  | nil =>
    intro s _ _ _ f hf
    simp only [runDriver, List.not_mem_nil] at hf
  | cons e evs ih =>
    intro s hval hc hg f hf
    cases e with
    | update sv =>
      have hf' : f ∈ (runDriver r evs (driverUpdate sv s)).2 := hf
      exact ih (driverUpdate sv s) (fun e he => hval e (List.mem_cons_of_mem _ he)) hc
        (blend_inRange sv) f hf'
    | frame t timedOut =>
      obtain ⟨ht0, ht1⟩ := hval _ (List.mem_cons_self _ _)
      have hinv := driverFrame_invariant r t timedOut s hr0 hr1 ht0 ht1 hc hg
      have hf' : f = (driverFrame r t timedOut s).2 ∨
          f ∈ (runDriver r evs (driverFrame r t timedOut s).1).2 := by
        simpa only [runDriver, List.mem_cons] using hf
      rcases hf' with rfl | hf'
      · exact hinv.2
      · exact ih (driverFrame r t timedOut s).1
          (fun e he => hval e (List.mem_cons_of_mem _ he)) hinv.1.1 hinv.1.2 f hf'

/-- C1: every produced parameter vector is in range — blend clamps every
field to its declared range, and along any sequence of EmotionDriver
update/frame calls (with transition progress in `[0,1]` and decay rate in
`[0,1]`) every frame the driver returns is in range, being built from
in-range frames by interpolations with factors in `[0,1]` starting from the
in-range neutral pose. -/
theorem c1_bounded_output :
    (∀ sv : List (String × ℚ), InRange (blend sv)) ∧
    ∀ (r : ℚ) (evs : List DEv), 0 ≤ r → r ≤ 1 → (∀ e ∈ evs, validEv e) →
      ∀ f ∈ (runDriver r evs initDriver).2, InRange f := by
  refine ⟨blend_inRange, fun r evs hr0 hr1 hval => ?_⟩
  exact runDriver_inRange hr0 hr1 evs initDriver hval neutral_inRange neutral_inRange

/-- Witness for C1 at a concrete run: an update to joy followed by a
mid-transition frame and a completed-transition frame, with the default
decay rate 0.02. -/
theorem c1_bounded_output_witness :
    InRange (blend [("joy", 1)]) ∧
    ((0:ℚ) ≤ 1/50 ∧ (1:ℚ)/50 ≤ 1 ∧
      (∀ e ∈ [DEv.update [("joy", 1)], DEv.frame (1/2) false, DEv.frame 1 false], validEv e)) ∧
    ∀ f ∈ (runDriver (1/50)
        [DEv.update [("joy", 1)], DEv.frame (1/2) false, DEv.frame 1 false] initDriver).2,
      InRange f :=
  ⟨c1_bounded_output.1 [("joy", 1)],
   ⟨by norm_num, by norm_num, by decide⟩,
   c1_bounded_output.2 (1/50)
     [DEv.update [("joy", 1)], DEv.frame (1/2) false, DEv.frame 1 false]
     (by norm_num) (by norm_num) (by decide)⟩

/-- A decay step of a non-transitioning driver interpolates the current
frame toward neutral by the decay rate and stays non-transitioning. -/
theorem stepDecay_eq {r : ℚ} {s : DriverState} (h : s.transitioning = false) :
    stepDecay r s =
      { current := lerp s.current NEUTRAL r, target := s.target, transitioning := false } := by
  unfold stepDecay driverFrame
  simp [h]

/-- Closed form of iterated decay: the distance of every field to neutral is
scaled by `(1 - r)` each step. -/
theorem stepDecay_iter {r : ℚ} {s : DriverState} (h : s.transitioning = false) (k : ℕ) :
    ((stepDecay r)^[k] s).transitioning = false ∧
    ∀ pt, ((stepDecay r)^[k] s).current pt - NEUTRAL pt =
      (1 - r) ^ k * (s.current pt - NEUTRAL pt) := by
  induction k with
  | zero => exact ⟨h, fun pt => by simp⟩
  | succ k ih =>
    obtain ⟨iht, ihc⟩ := ih
    rw [Function.iterate_succ_apply', stepDecay_eq iht]
    refine ⟨rfl, fun pt => ?_⟩
    show lerp ((stepDecay r)^[k] s).current NEUTRAL r pt - NEUTRAL pt = _
    unfold lerp
    linear_combination (1 - r) * ihc pt

/-- C9: once the driver is not transitioning (and past the idle timeout),
each frame call moves the current frame toward NEUTRAL by the decay-rate
lerp, and for every positive epsilon some number of decay steps brings every
field within epsilon of its neutral value. -/
theorem c9_decay_to_neutral :
    ∀ (r : ℚ) (s : DriverState), s.transitioning = false → 0 < r → r ≤ 1 →
      (∀ pt, (stepDecay r s).current pt = s.current pt + (NEUTRAL pt - s.current pt) * r) ∧
      ∀ ε : ℚ, 0 < ε →
        ∃ k : ℕ, ∀ pt, |((stepDecay r)^[k] s).current pt - NEUTRAL pt| ≤ ε := by
  intro r s hs hr0 hr1
  constructor
  · intro pt
    rw [stepDecay_eq hs]
    rfl
  · intro ε hε
    obtain ⟨M, hM⟩ : ∃ M, ∀ pt : Pt, |s.current pt - NEUTRAL pt| ≤ M :=
      ⟨Finset.univ.sup' Finset.univ_nonempty (fun pt => |s.current pt - NEUTRAL pt|),
       fun pt => Finset.le_sup' (fun pt => |s.current pt - NEUTRAL pt|) (Finset.mem_univ pt)⟩
    have hM0 : 0 ≤ M := le_trans (abs_nonneg _) (hM Pt.mouth_open)
    have hM1 : (0:ℚ) < M + 1 := by linarith
    have h1r0 : (0:ℚ) ≤ 1 - r := by linarith
    have h1r1 : 1 - r < 1 := by linarith
    obtain ⟨k, hk⟩ := exists_pow_lt_of_lt_one (div_pos hε hM1) h1r1
    refine ⟨k, fun pt => ?_⟩
    calc |((stepDecay r)^[k] s).current pt - NEUTRAL pt|
        = (1 - r) ^ k * |s.current pt - NEUTRAL pt| := by
          rw [(stepDecay_iter hs k).2 pt, abs_mul, abs_of_nonneg (pow_nonneg h1r0 k)]
      _ ≤ (1 - r) ^ k * (M + 1) := by
          apply mul_le_mul_of_nonneg_left _ (pow_nonneg h1r0 k)
          linarith [hM pt]
      _ ≤ ε / (M + 1) * (M + 1) := mul_le_mul_of_nonneg_right (le_of_lt hk) (le_of_lt hM1)
      _ = ε := div_mul_cancel₀ ε (ne_of_gt hM1)

/-- Any effect returned by getMarkerEffect is one of the six table entries. -/
theorem getMarkerEffect_cases {name : String} {e : MarkerEffect}
    (h : getMarkerEffect name = some e) :
    e = emphasisEffect ∨ e = pauseEffect ∨ e = longPauseEffect ∨ e = whisperEffect ∨
      e = excitedEffect ∨ e = questionEffect := by
  unfold getMarkerEffect at h
  split_ifs at h <;> simp_all

/-- Table effects never carry a zero (falsy) multiplier, scale or brow
raise. -/
theorem table_effect_nonzero {name : String} {e : MarkerEffect}
    (h : getMarkerEffect name = some e) :
    e.speedMultiplier ≠ some 0 ∧ e.mouthScale ≠ some 0 ∧ e.browRaise ≠ some 0 := by
  rcases getMarkerEffect_cases h with rfl | rfl | rfl | rfl | rfl | rfl <;> decide

/-- Folding a multiplication from an initial value is the initial value
times the product. -/
theorem foldl_mul_eq_prod (l : List ℚ) : ∀ a : ℚ, l.foldl (· * ·) a = a * l.prod := by
  induction l with
  | nil => intro a; simp
  | cons x l ih =>
    intro a
    simp only [List.foldl_cons, List.prod_cons, ih]
    ring

/-- The effect fold, component-wise: from any accumulator, each component
folds exactly the present (non-falsy) fields of the effects. -/
theorem foldl_effectStep (effs : List MarkerEffect)
    (h : ∀ e ∈ effs,
      e.speedMultiplier ≠ some 0 ∧ e.mouthScale ≠ some 0 ∧ e.browRaise ≠ some 0) :
    ∀ a b c : ℚ,
      effs.foldl effectStep (a, b, c) =
        ((effs.filterMap MarkerEffect.speedMultiplier).foldl (· * ·) a,
         (effs.filterMap MarkerEffect.mouthScale).foldl (· * ·) b,
         (effs.filterMap MarkerEffect.browRaise).foldl jsMax c) := by
  induction effs with
  | nil => intro a b c; simp
  | cons e effs ih =>
    intro a b c
    obtain ⟨h1, h2, h3⟩ := h e (List.mem_cons_self _ _)
    have ih' := ih (fun e' he' => h e' (List.mem_cons_of_mem _ he'))
    obtain ⟨esp, ems, ebr, epd⟩ := e
    simp only [List.foldl_cons, List.filterMap_cons]
    cases esp <;> cases ems <;> cases ebr <;> simp_all [effectStep]

/-- C8: over any stack of table effect scopes, the effective speed is the
input speed times the product of the scopes' speedMultiplier values, the
effective mouth scale is the product of their mouthScale values, and the
effective brow raise is the max (over a base of 0) of their browRaise
values; and applying the mouth scale to a frame clamps mouth_open,
mouth_wide and jaw_open at 1. -/
theorem c8_nested_scope_composition :
    (∀ (speed : ℚ) (effs : List MarkerEffect),
      (∀ e ∈ effs, ∃ n, getMarkerEffect n = some e) →
      foldEffects speed effs =
        (speed * (effs.filterMap MarkerEffect.speedMultiplier).prod,
         (effs.filterMap MarkerEffect.mouthScale).prod,
         (effs.filterMap MarkerEffect.browRaise).foldl max 0)) ∧
    ∀ (scale brow : ℚ) (p : Pts),
      (applyFx scale brow p).mouth_open = min 1 (p.mouth_open * scale) ∧
      (applyFx scale brow p).mouth_wide = min 1 (p.mouth_wide * scale) ∧
      (applyFx scale brow p).jaw_open = min 1 (p.jaw_open * scale) ∧
      (applyFx scale brow p).mouth_open ≤ 1 ∧
      (applyFx scale brow p).mouth_wide ≤ 1 ∧
      (applyFx scale brow p).jaw_open ≤ 1 := by
  have hmax : jsMax = fun a b : ℚ => max a b := by
    funext a b
    exact jsMax_eq a b
  constructor
  · intro speed effs h
    have h' : ∀ e ∈ effs,
        e.speedMultiplier ≠ some 0 ∧ e.mouthScale ≠ some 0 ∧ e.browRaise ≠ some 0 :=
      fun e he => (h e he).elim fun n hn => table_effect_nonzero hn
    unfold foldEffects
    rw [foldl_effectStep effs h' speed 1 0, foldl_mul_eq_prod, foldl_mul_eq_prod, hmax]
    simp
  · intro scale brow p
    refine ⟨jsMin_eq _ _, jsMin_eq _ _, jsMin_eq _ _, ?_, ?_, ?_⟩ <;>
      · show jsMin 1 _ ≤ 1
        rw [jsMin_eq]
        exact min_le_left _ _

/-- Witness for C8 on the concrete scope stack [emphasis, whisper] with base
speed 1, and a concrete frame scaled by 2. -/
theorem c8_nested_scope_composition_witness :
    (∀ e ∈ [emphasisEffect, whisperEffect], ∃ n, getMarkerEffect n = some e) ∧
    foldEffects 1 [emphasisEffect, whisperEffect] =
      (1 * ([emphasisEffect, whisperEffect].filterMap MarkerEffect.speedMultiplier).prod,
       ([emphasisEffect, whisperEffect].filterMap MarkerEffect.mouthScale).prod,
       ([emphasisEffect, whisperEffect].filterMap MarkerEffect.browRaise).foldl max 0) ∧
    (applyFx 2 0 pausePts).mouth_open = min 1 (pausePts.mouth_open * 2) ∧
    (applyFx 2 0 pausePts).jaw_open ≤ 1 := by
  have hmem : ∀ e ∈ [emphasisEffect, whisperEffect], ∃ n, getMarkerEffect n = some e := by
    intro e he
    rcases List.mem_cons.mp he with rfl | he'
    · exact ⟨"emphasis", by decide⟩
    rcases List.mem_cons.mp he' with rfl | he''
    · exact ⟨"whisper", by decide⟩
    · cases he''
  exact ⟨hmem, c8_nested_scope_composition.1 1 [emphasisEffect, whisperEffect] hmem,
    (c8_nested_scope_composition.2 2 0 pausePts).1,
    (c8_nested_scope_composition.2 2 0 pausePts).2.2.2.2.2⟩

/-- The frame times of phonemesToFrames are `i / fps` for
`i = 0, ..., n` where `n` is the sample count. -/
theorem ptf_map_t (ps : List Phon) (fps : ℚ) :
    (phonemesToFrames ps fps).map LFrame.t =
      (List.range ((Rat.ceil ((ps.foldl (fun s p => s + p.duration) 0) * fps)).toNat + 1)).map
        (fun i : ℕ => (i : ℚ) / fps) := by
  unfold phonemesToFrames
  rw [List.map_append, List.map_map, List.range_succ, List.map_append]
  rfl

/-- The last frame of phonemesToFrames is the closed-mouth frame at
`n / fps`. -/
theorem ptf_getLast (ps : List Phon) (fps : ℚ) :
    (phonemesToFrames ps fps).getLast? =
      some { t := (((Rat.ceil ((ps.foldl (fun s p => s + p.duration) 0) * fps)).toNat : ℚ)) / fps,
             pts := closingPts } := by
  unfold phonemesToFrames
  rw [List.getLast?_concat]

/-- A list mapped from `range` by a monotone function is sorted. -/
theorem sorted_map_range {g : ℕ → ℚ} (hg : ∀ i j : ℕ, i ≤ j → g i ≤ g j) (m : ℕ) :
    List.Sorted (· ≤ ·) ((List.range m).map g) := by
  rw [List.Sorted, List.pairwise_map]
  exact (List.pairwise_lt_range m).imp fun h => hg _ _ (Nat.le_of_lt h)

/-- Appending a block of frames that is internally sorted, starts at or
after the old time offset, and stays at or below the new time offset,
preserves the loop invariant. -/
theorem genInvariant_append {st : GenState} (h : GenInvariant st) (new : List LFrame)
    (off' : ℚ) (ae : List MarkerEffect)
    (hsorted : List.Sorted (· ≤ ·) (new.map LFrame.t))
    (hlow : ∀ f ∈ new, st.timeOffset ≤ f.t)
    (hhigh : ∀ f ∈ new, f.t ≤ off')
    (hoff : st.timeOffset ≤ off') :
    GenInvariant { timeOffset := off', frames := st.frames ++ new, activeEffects := ae } := by
  constructor
  · show List.Pairwise _ _
    rw [List.map_append, List.pairwise_append]
    refine ⟨h.1, hsorted, ?_⟩
    intro x hx y hy
    obtain ⟨fx, hfx, rfl⟩ := List.mem_map.mp hx
    obtain ⟨fy, hfy, rfl⟩ := List.mem_map.mp hy
    exact le_trans (h.2 fx hfx) (hlow fy hfy)
  · intro f hf
    rcases List.mem_append.mp hf with hf | hf
    · exact le_trans (h.2 f hf) hoff
    · exact hhigh f hf

/-- The index of any inserted pause frame, divided by fps, stays below the
pause duration, because `Math.round(d * fps) ≤ d * fps + 1/2`. -/
theorem pause_index_le {d fps : ℚ} (hfps : 0 < fps) (i : ℕ)
    (hi : i < (jsRound (d * fps)).toNat) : (i : ℚ) / fps ≤ d := by
  rw [div_le_iff₀ hfps]
  have h1 : (i : ℤ) < jsRound (d * fps) := Int.lt_toNat.mp hi
  have h2 : ((jsRound (d * fps) : ℤ) : ℚ) ≤ d * fps + 1/2 := by
    unfold jsRound
    exact Rat.le_floor.mp (le_refl _)
  have h3 : ((i : ℤ) : ℚ) + 1 ≤ ((jsRound (d * fps) : ℤ) : ℚ) := by
    exact_mod_cast Int.add_one_le_iff.mpr h1
  push_cast at h3
  linarith

/-- Division of natural numbers by a positive fps is monotone. -/
theorem div_fps_mono {fps : ℚ} (hfps : 0 < fps) {i j : ℕ} (hij : i ≤ j) :
    (i : ℚ) / fps ≤ (j : ℚ) / fps := by
  gcongr

/-- The pause branch preserves the loop invariant (for a positive pause
duration). -/
theorem processPause_invariant {fps : ℚ} (hfps : 0 < fps) {st : GenState} {d : ℚ}
    (hd : 0 < d) (h : GenInvariant st) : GenInvariant (processPause fps st d) := by
  unfold processPause
  apply genInvariant_append h _ _ _
  · rw [List.map_map]
    apply sorted_map_range
    intro i j hij
    have := div_fps_mono hfps hij
    show st.timeOffset + (i : ℚ) / fps ≤ st.timeOffset + (j : ℚ) / fps
    linarith
  · intro f hf
    obtain ⟨i, _, rfl⟩ := List.mem_map.mp hf
    have : 0 ≤ (i : ℚ) / fps := div_nonneg (by positivity) hfps.le
    show st.timeOffset ≤ st.timeOffset + (i : ℚ) / fps
    linarith
  · intro f hf
    obtain ⟨i, hi, rfl⟩ := List.mem_map.mp hf
    have := pause_index_le hfps i (List.mem_range.mp hi)
    show st.timeOffset + (i : ℚ) / fps ≤ st.timeOffset + d
    linarith
  · linarith

/-- The text branch in fully applied form preserves the loop invariant: the
appended block of frames is the phoneme frames, offset in time and with the
effects applied. -/
theorem textBlock_invariant {fps : ℚ} (hfps : 0 < fps) {st : GenState} (ps : List Phon)
    (sc br : ℚ) (ae : List MarkerEffect) (h : GenInvariant st) :
    GenInvariant
      { timeOffset :=
          match ((phonemesToFrames ps fps).map (offsetFx st.timeOffset sc br)).getLast? with
          | some f => f.t + 1 / fps
          | none => st.timeOffset,
        frames := st.frames ++ (phonemesToFrames ps fps).map (offsetFx st.timeOffset sc br),
        activeEffects := ae } := by
  have hshape : ∃ m : ℕ,
      (((phonemesToFrames ps fps).map (offsetFx st.timeOffset sc br)).map LFrame.t =
        (List.range (m + 1)).map (fun i : ℕ => (i : ℚ) / fps + st.timeOffset)) ∧
      ((phonemesToFrames ps fps).map (offsetFx st.timeOffset sc br)).getLast? =
        some (offsetFx st.timeOffset sc br
          { t := ((m : ℚ)) / fps, pts := closingPts }) := by
    refine ⟨(Rat.ceil ((ps.foldl (fun s p => s + p.duration) 0) * fps)).toNat, ?_, ?_⟩
    · calc ((phonemesToFrames ps fps).map (offsetFx st.timeOffset sc br)).map LFrame.t
          = ((phonemesToFrames ps fps).map LFrame.t).map (fun x => x + st.timeOffset) := by
            rw [List.map_map, List.map_map]
            rfl
        _ = _ := by
            rw [ptf_map_t, List.map_map]
            rfl
    · rw [List.getLast?_map, ptf_getLast]
      rfl
  obtain ⟨m, hmapt, hlast⟩ := hshape
  simp only [hlast]
  apply genInvariant_append h _ _ _
  · rw [hmapt]
    apply sorted_map_range
    intro i j hij
    have := div_fps_mono hfps hij
    linarith
  · intro f hf
    have hmem : f.t ∈
        ((phonemesToFrames ps fps).map (offsetFx st.timeOffset sc br)).map LFrame.t :=
      List.mem_map_of_mem _ hf
    rw [hmapt] at hmem
    obtain ⟨i, _, hfi⟩ := List.mem_map.mp hmem
    rw [← hfi]
    have : 0 ≤ (i : ℚ) / fps := div_nonneg (by positivity) hfps.le
    linarith
  · intro f hf
    have hmem : f.t ∈
        ((phonemesToFrames ps fps).map (offsetFx st.timeOffset sc br)).map LFrame.t :=
      List.mem_map_of_mem _ hf
    rw [hmapt] at hmem
    obtain ⟨i, hi, hfi⟩ := List.mem_map.mp hmem
    rw [← hfi]
    have hiN : i ≤ m := Nat.lt_succ_iff.mp (List.mem_range.mp hi)
    have := div_fps_mono hfps hiN
    have h1 : 0 < 1 / fps := by positivity
    show (i : ℚ) / fps + st.timeOffset ≤
      (offsetFx st.timeOffset sc br { t := ((m : ℚ)) / fps, pts := closingPts }).t + 1 / fps
    show (i : ℚ) / fps + st.timeOffset ≤ ((m : ℚ) / fps + st.timeOffset) + 1 / fps
    linarith
  · have : 0 ≤ (m : ℚ) / fps := div_nonneg (by positivity) hfps.le
    have h1 : 0 < 1 / fps := by positivity
    show st.timeOffset ≤
      (offsetFx st.timeOffset sc br { t := ((m : ℚ)) / fps, pts := closingPts }).t + 1 / fps
    show st.timeOffset ≤ ((m : ℚ) / fps + st.timeOffset) + 1 / fps
    linarith

/-- The text branch preserves the loop invariant. -/
theorem processText_invariant {fps : ℚ} (speed : ℚ) (hfps : 0 < fps) {st : GenState}
    (content : String) (h : GenInvariant st) :
    GenInvariant (processText fps speed st content) := by
  unfold processText
  exact textBlock_invariant hfps _ _ _ _ h

/-- Every pauseDuration in the effect table is 0.4 or 0.8 (hence positive). -/
theorem pauseDuration_cases {name : String} {e : MarkerEffect} {d : ℚ}
    (h : getMarkerEffect name = some e) (hd : e.pauseDuration = some d) :
    d = 2/5 ∨ d = 4/5 := by
  rcases getMarkerEffect_cases h with rfl | rfl | rfl | rfl | rfl | rfl <;>
    simp_all [emphasisEffect, pauseEffect, longPauseEffect, whisperEffect, excitedEffect,
      questionEffect]

/-- Each segment-loop iteration preserves the invariant. -/
theorem processSeg_invariant {fps : ℚ} (speed : ℚ) (hfps : 0 < fps) (st : GenState) (seg : Seg)
    (h : GenInvariant st) : GenInvariant (processSeg fps speed st seg) := by
  cases seg with
  | markerStart name =>
    cases hge : getMarkerEffect name with
    | none => simpa only [processSeg, hge] using h
    | some e =>
      simp only [processSeg, hge]
      exact ⟨h.1, h.2⟩
  | markerEnd name =>
    simp only [processSeg]
    exact ⟨h.1, h.2⟩
  | marker name =>
    cases hge : getMarkerEffect name with
    | none => simpa only [processSeg, hge] using h
    | some e =>
      cases hpd : e.pauseDuration with
      | none => simpa only [processSeg, hge, hpd] using h
      | some d =>
        by_cases hd0 : d = 0
        · simpa only [processSeg, hge, hpd, if_pos hd0] using h
        · have hdpos : 0 < d := by
            rcases pauseDuration_cases hge hpd with rfl | rfl <;> norm_num
          simpa only [processSeg, hge, hpd, if_neg hd0] using
            processPause_invariant hfps hdpos h
  | text content =>
    simpa only [processSeg] using processText_invariant speed hfps content h

/-- The whole segment loop preserves the invariant. -/
theorem foldl_processSeg_invariant {fps : ℚ} (speed : ℚ) (hfps : 0 < fps) :
    ∀ (segs : List Seg) (st : GenState), GenInvariant st →
      GenInvariant (segs.foldl (processSeg fps speed) st) := by
  intro segs
  induction segs with
  | nil => intro st h; exact h
  | cons seg segs ih =>
    intro st h
    exact ih _ (processSeg_invariant speed hfps st seg h)

/-- Finishing a state satisfying the loop invariant gives sorted frame
times, and the last frame (if any) is the closed-mouth closing frame. -/
theorem finishFrames_spec {st : GenState} (h : GenInvariant st) :
    List.Sorted (· ≤ ·) ((finishFrames st).map LFrame.t) ∧
    ∀ f, (finishFrames st).getLast? = some f →
      f.pts.mouth_open = 0 ∧ f.pts.jaw_open = 0 := by
  unfold finishFrames
  by_cases hemp : st.frames.isEmpty
  · rw [if_pos hemp, List.isEmpty_iff.mp hemp]
    exact ⟨List.sorted_nil, fun f hf => by cases hf⟩
  · rw [if_neg hemp]
    constructor
    · show List.Pairwise _ _
      rw [List.map_append, List.pairwise_append]
      refine ⟨h.1, List.pairwise_singleton _ _, ?_⟩
      intro x hx y hy
      obtain ⟨fx, hfx, rfl⟩ := List.mem_map.mp hx
      simp only [List.map_cons, List.map_nil, List.mem_singleton] at hy
      subst hy
      exact h.2 fx hfx
    · intro f hf
      rw [List.getLast?_concat] at hf
      cases hf
      exact ⟨rfl, rfl⟩

/-- C4: for every text and every positive fps and speed, the frame times of
generateLipSync are non-decreasing, and when the frame sequence is nonempty
its final frame has mouth_open = 0 and jaw_open = 0. -/
theorem c4_monotone_and_closed_end :
    ∀ (text : String) (fps speed : ℚ), 0 < fps → 0 < speed →
      List.Sorted (· ≤ ·) ((generateLipSync text fps speed).frames.map LFrame.t) ∧
      ∀ f, (generateLipSync text fps speed).frames.getLast? = some f →
        f.pts.mouth_open = 0 ∧ f.pts.jaw_open = 0 :=
  fun text fps speed hfps _hspeed =>
    finishFrames_spec
      (foldl_processSeg_invariant speed hfps (parseMarkers text)
        { timeOffset := 0, frames := [], activeEffects := [] }
        ⟨List.sorted_nil, fun f hf => by cases hf⟩)

/-- If the marker regex matches nowhere, the removal pass is the
identity (for any fuel). -/
theorem removeFuel_id : ∀ (fuel : ℕ) (l : List Char), hasMarker l = false →
    removeFuel fuel l = l := by
  intro fuel
  induction fuel with
  | zero => intro l _; rfl
  | succ fuel ih =>
    intro l hl
    cases l with
    | nil => rfl
    | cons c cs =>
      have hl' : ((matchMarker (c :: cs)).isSome || hasMarker cs) = false := hl
      rw [Bool.or_eq_false_iff] at hl'
      have hm : matchMarker (c :: cs) = none :=
        Option.not_isSome_iff_eq_none.mp (by rw [hl'.1]; exact Bool.false_ne_true)
      show removeFuel (fuel + 1) (c :: cs) = c :: cs
      simp only [removeFuel, hm]
      rw [ih cs hl'.2]

/-- The run-collapsing scan with a pending-space flag never starts its
output with whitespace. -/
theorem collapseGo_true_headNotSpace : ∀ l, headNotSpace (collapseGo true l) = true := by
  intro l
  induction l with
  | nil => rfl
  | cons c cs ih =>
    by_cases hc : isSpaceJS c = true
    · simpa [collapseGo, hc] using ih
    · simp [collapseGo, hc, headNotSpace]

/-- Unfolding of the whitespace-normal-form predicate at a cons. -/
theorem collapsedB_cons (c : Char) (cs : List Char) :
    collapsedB (c :: cs) =
      ((!isSpaceJS c || (c == ' ' && headNotSpace cs)) && collapsedB cs) := by
  cases cs with
  | nil =>
    show (!isSpaceJS c || c == ' ') = _
    simp [headNotSpace, collapsedB]
  | cons c2 cs2 => simp [collapsedB, headNotSpace]

/-- The collapsing scan always produces whitespace-normal form. -/
theorem collapsedB_collapseGo : ∀ (l : List Char) (b : Bool),
    collapsedB (collapseGo b l) = true := by
  intro l
  induction l with
  | nil => intro b; rfl
  | cons c cs ih =>
    intro b
    by_cases hc : isSpaceJS c = true
    · cases b with
      | true => simpa [collapseGo, hc] using ih true
      | false =>
        rw [show collapseGo false (c :: cs) = ' ' :: collapseGo true cs from by
          simp [collapseGo, hc]]
        rw [collapsedB_cons]
        simp [isSpaceJS, collapseGo_true_headNotSpace, ih true]
    · rw [show collapseGo b (c :: cs) = c :: collapseGo false cs from by
        simp [collapseGo, hc]]
      rw [collapsedB_cons]
      simp [hc, ih false]

/-- On whitespace-normal input (whose head is not whitespace when the flag
is set), the collapsing scan is the identity. -/
theorem collapseGo_id : ∀ (l : List Char) (b : Bool), collapsedB l = true →
    (b = true → headNotSpace l = true) → collapseGo b l = l := by
  intro l
  induction l with
  | nil => intro b _ _; rfl
  | cons c cs ih =>
    intro b hcoll hhead
    rw [collapsedB_cons, Bool.and_eq_true] at hcoll
    by_cases hc : isSpaceJS c = true
    · cases b with
      | true =>
        exact absurd (hhead rfl) (by simp [headNotSpace, hc])
      | false =>
        have hsp : (c == ' ') = true ∧ headNotSpace cs = true := by
          have h1 := hcoll.1
          rw [hc] at h1
          simpa using h1
        rw [show collapseGo false (c :: cs) = ' ' :: collapseGo true cs from by
          simp [collapseGo, hc]]
        rw [ih true hcoll.2 (fun _ => hsp.2)]
        rw [show c = ' ' from by simpa using hsp.1]
    · rw [show collapseGo b (c :: cs) = c :: collapseGo false cs from by
        simp [collapseGo, hc]]
      rw [ih false hcoll.2 (by simp)]

/-- Whitespace-normal form is preserved by dropping a prefix with
`dropWhile`. -/
theorem collapsedB_dropWhile (p : Char → Bool) : ∀ l : List Char,
    collapsedB l = true → collapsedB (l.dropWhile p) = true := by
  intro l
  induction l with
  | nil => intro h; exact h
  | cons c cs ih =>
    intro h
    rw [List.dropWhile_cons]
    by_cases hp : p c = true
    · rw [if_pos hp]
      apply ih
      rw [collapsedB_cons, Bool.and_eq_true] at h
      exact h.2
    · rw [if_neg hp]
      exact h

/-- Whitespace-normal form is inherited by the left part of an append. -/
theorem collapsedB_of_append_left : ∀ l1 l2 : List Char,
    collapsedB (l1 ++ l2) = true → collapsedB l1 = true := by
  intro l1
  induction l1 with
  | nil => intro l2 _; rfl
  | cons c l1 ih =>
    intro l2 h
    rw [List.cons_append, collapsedB_cons, Bool.and_eq_true] at h
    rw [collapsedB_cons, Bool.and_eq_true]
    refine ⟨?_, ih l2 h.2⟩
    have h1 := h.1
    rw [Bool.or_eq_true] at h1 ⊢
    rcases h1 with h1 | h1
    · exact Or.inl h1
    · rw [Bool.and_eq_true] at h1
      refine Or.inr ?_
      rw [Bool.and_eq_true]
      refine ⟨h1.1, ?_⟩
      cases l1 with
      | nil => rfl
      | cons d l1' => exact h1.2

/-- `trimR` keeps a prefix: the trailing whitespace it removes can be put
back. -/
theorem trimR_append (l : List Char) :
    trimR l ++ ((l.reverse.takeWhile isSpaceJS).reverse) = l := by
  unfold trimR
  rw [← List.reverse_append, List.takeWhile_append_dropWhile, List.reverse_reverse]

/-- `dropWhile isSpaceJS` leaves a list whose head is not whitespace. -/
theorem headNotSpace_dropWhile : ∀ l : List Char,
    headNotSpace (l.dropWhile isSpaceJS) = true := by
  intro l
  induction l with
  | nil => rfl
  | cons c cs ih =>
    rw [List.dropWhile_cons]
    by_cases hc : isSpaceJS c = true
    · rw [if_pos hc]
      exact ih
    · rw [if_neg hc]
      simpa [headNotSpace] using hc

/-- `dropWhile isSpaceJS` is the identity when the head is not whitespace. -/
theorem dropWhile_of_headNotSpace : ∀ {l : List Char}, headNotSpace l = true →
    l.dropWhile isSpaceJS = l := by
  intro l h
  cases l with
  | nil => rfl
  | cons c cs =>
    rw [List.dropWhile_cons, if_neg]
    simpa [headNotSpace] using h

/-- `trimR` preserves a non-whitespace head. -/
theorem headNotSpace_trimR {l : List Char} (h : headNotSpace l = true) :
    headNotSpace (trimR l) = true := by
  cases htr : trimR l with
  | nil => rfl
  | cons d ds =>
    have hl := trimR_append l
    rw [htr] at hl
    rw [← hl] at h
    exact h

/-- `trimR` is idempotent. -/
theorem trimR_idem (l : List Char) : trimR (trimR l) = trimR l := by
  show ((trimR l).reverse.dropWhile isSpaceJS).reverse = trimR l
  unfold trimR
  rw [List.reverse_reverse, dropWhile_of_headNotSpace (headNotSpace_dropWhile l.reverse)]

/-- C2 (amended): stripMarkers is idempotent on every input whose stripped
form contains no marker token — the second pass then removes nothing, and
collapsing and trimming are idempotent on the first pass's output.  (Without
that proviso idempotence fails, since removing a marker can splice a new
marker token together.) -/
theorem c2_strip_idempotent_amended :
    ∀ x : String, hasMarker (stripMarkers x).data = false →
      stripMarkers (stripMarkers x) = stripMarkers x := by
  intro x h
  show String.mk (trimWs (collapseGo false (removeMarkers (stripMarkers x).data))) =
    stripMarkers x
  have hy : (stripMarkers x).data = trimWs (collapseGo false (removeMarkers x.data)) := rfl
  rw [hy] at h ⊢
  have h1 : removeMarkers (trimWs (collapseGo false (removeMarkers x.data))) =
      trimWs (collapseGo false (removeMarkers x.data)) := removeFuel_id _ _ h
  have hcz : collapsedB (collapseGo false (removeMarkers x.data)) = true :=
    collapsedB_collapseGo _ false
  have hczt : collapsedB (trimWs (collapseGo false (removeMarkers x.data))) = true := by
    unfold trimWs
    apply collapsedB_of_append_left _ ((trimL
      (collapseGo false (removeMarkers x.data))).reverse.takeWhile isSpaceJS).reverse
    rw [trimR_append]
    exact collapsedB_dropWhile _ _ hcz
  have hhead : headNotSpace (trimWs (collapseGo false (removeMarkers x.data))) = true :=
    headNotSpace_trimR (headNotSpace_dropWhile _)
  have h2 : collapseGo false (trimWs (collapseGo false (removeMarkers x.data))) =
      trimWs (collapseGo false (removeMarkers x.data)) :=
    collapseGo_id _ false hczt (by intro hb; cases hb)
  have h3 : trimWs (trimWs (collapseGo false (removeMarkers x.data))) =
      trimWs (collapseGo false (removeMarkers x.data)) := by
    show trimR (trimL (trimWs (collapseGo false (removeMarkers x.data)))) = _
    rw [show trimL (trimWs (collapseGo false (removeMarkers x.data))) =
        trimWs (collapseGo false (removeMarkers x.data)) from
      dropWhile_of_headNotSpace hhead]
    show trimR (trimR (trimL (collapseGo false (removeMarkers x.data)))) = _
    rw [trimR_idem]
    rfl
  rw [h1, h2, h3]
  rfl

/-- Witness for the C2 amended theorem: a realistic marked-up input whose
stripped form is marker-free. -/
theorem c2_strip_idempotent_amended_witness :
    hasMarker (stripMarkers "Hello @@emphasis@@world@@/emphasis@@!").data = false ∧
    stripMarkers (stripMarkers "Hello @@emphasis@@world@@/emphasis@@!") =
      stripMarkers "Hello @@emphasis@@world@@/emphasis@@!" :=
  ⟨by decide, c2_strip_idempotent_amended "Hello @@emphasis@@world@@/emphasis@@!" (by decide)⟩

/-- Witness for C4 on a concrete marked-up text at the default options. -/
theorem c4_monotone_and_closed_end_witness :
    (0:ℚ) < 30 ∧ (0:ℚ) < 1 ∧
      (List.Sorted (· ≤ ·)
          ((generateLipSync "hi @@pause@@ world" 30 1).frames.map LFrame.t) ∧
        ∀ f, (generateLipSync "hi @@pause@@ world" 30 1).frames.getLast? = some f →
          f.pts.mouth_open = 0 ∧ f.pts.jaw_open = 0) :=
  ⟨by norm_num, by norm_num,
   c4_monotone_and_closed_end "hi @@pause@@ world" 30 1 (by norm_num) (by norm_num)⟩

/-- Witness for C9 at the default decay rate 0.02, starting from the neutral
initial driver state, with epsilon 0.01. -/
theorem c9_decay_to_neutral_witness :
    initDriver.transitioning = false ∧ (0:ℚ) < 1/50 ∧ (1:ℚ)/50 ≤ 1 ∧ (0:ℚ) < 1/100 ∧
      ((∀ pt, (stepDecay (1/50) initDriver).current pt =
          initDriver.current pt + (NEUTRAL pt - initDriver.current pt) * (1/50)) ∧
        ∃ k : ℕ, ∀ pt,
          |((stepDecay (1/50))^[k] initDriver).current pt - NEUTRAL pt| ≤ 1/100) :=
  ⟨rfl, by norm_num, by norm_num, by norm_num,
   (c9_decay_to_neutral (1/50) initDriver rfl (by norm_num) (by norm_num)).1,
   (c9_decay_to_neutral (1/50) initDriver rfl (by norm_num) (by norm_num)).2 (1/100)
     (by norm_num)⟩

end Visage
